import Mathlib

/-!
Shallow embedding of the SELD evaluation metrics module
(seld-dcase2020, metrics/SELD_evaluation_metrics.py) together with
theorems checking its specification.

Modelling conventions:
* Python ints (all counters) become `ℕ` (they start at 0 and only have
  non-negative amounts added); floating-point quantities become `ℝ`.
* `np.finfo(float).eps` is the IEEE-754 double machine epsilon `2⁻⁵²`.
* A Python `dict` of per-block annotations becomes a lookup function to
  `Option`, together with its key count; `dict[k]` on a missing key
  raises `KeyError`, which the embedding models by propagating `none`
  (so every ingestion operation returns `Option SELDMetrics`).
* Loops become folds; a loop body that can raise propagates `none`
  through the fold (`optFoldl`).
* `np.clip(d, -1, 1)` is `min 1 (max (-1) d)`.
-/

namespace SELD

/-- Machine epsilon of IEEE-754 double precision: the value of
`np.finfo(np.float).eps` used by the source module. -/
noncomputable def eps : ℝ := 2 ^ (-52 : ℤ)

/-- The mutable state of a `SELDMetrics` accumulator object: the counters
set to zero in `SELDMetrics.__init__` plus the immutable configuration
(`_spatial_T`, `_nb_classes`). -/
structure SELDMetrics where
  TP : ℕ
  FP : ℕ
  TN : ℕ
  FN : ℕ
  S : ℕ
  D : ℕ
  I : ℕ
  Nref : ℕ
  Nsys : ℕ
  total_DE : ℝ
  DE_TP : ℕ
  spatial_T : ℝ
  nb_classes : ℕ

/-- `SELDMetrics.__init__(doa_threshold, nb_classes)`: all counters zero. -/
noncomputable def SELDMetrics.init (doa_threshold : ℝ) (nb_classes : ℕ) : SELDMetrics :=
  ⟨0, 0, 0, 0, 0, 0, 0, 0, 0, 0, 0, doa_threshold, nb_classes⟩

/-- `SELDMetrics.compute_seld_scores`: derives `(ER, F, DE, DE_F)` from the
current counters.  `if self._DE_TP:` is Python integer truthiness,
i.e. `DE_TP ≠ 0`. -/
noncomputable def compute_seld_scores (m : SELDMetrics) : ℝ × ℝ × ℝ × ℝ :=
  let ER : ℝ := ((m.S + m.D + m.I : ℕ) : ℝ) / ((m.Nref : ℝ) + eps)
  let P : ℝ := (m.TP : ℝ) / ((m.Nsys : ℝ) + eps)
  let R : ℝ := (m.TP : ℝ) / ((m.Nref : ℝ) + eps)
  let F : ℝ := 2 * P * R / (P + R + eps)
  let DE : ℝ := if m.DE_TP ≠ 0 then m.total_DE / ((m.DE_TP : ℝ) + eps) else 180
  let DE_P : ℝ := (m.DE_TP : ℝ) / ((m.Nsys : ℝ) + eps)
  let DE_R : ℝ := (m.DE_TP : ℝ) / ((m.Nref : ℝ) + eps)
  let DE_F : ℝ := 2 * DE_P * DE_R / (DE_P + DE_R + eps)
  (ER, F, DE, DE_F)

/-- `distance_between_spherical_coordinates_rad(az1, ele1, az2, ele2)`:
great-circle angular distance in degrees, cosine argument clipped to
`[-1, 1]` before `arccos`. -/
noncomputable def distance_between_spherical_coordinates_rad
    (az1 ele1 az2 ele2 : ℝ) : ℝ :=
  let dist := Real.sin ele1 * Real.sin ele2 +
    Real.cos ele1 * Real.cos ele2 * Real.cos |az1 - az2|
  let dist := min 1 (max (-1) dist)
  Real.arccos dist * 180 / Real.pi

/-- `distance_between_cartesian_coordinates(x1, y1, z1, x2, y2, z2)`:
Euclidean chord length, clipped to `[-1, 1]` (exactly as the source does,
even though the chord between unit vectors ranges over `[0, 2]`), then
converted by `2·arcsin(dist/2)` to degrees. -/
noncomputable def distance_between_cartesian_coordinates
    (x1 y1 z1 x2 y2 z2 : ℝ) : ℝ :=
  let dist := Real.sqrt ((x1 - x2) ^ 2 + (y1 - y2) ^ 2 + (z1 - z2) ^ 2)
  let dist := min 1 (max (-1) dist)
  2 * Real.arcsin (dist / 2) * 180 / Real.pi

/-- `early_stopping_metric(sed_error, doa_error)`: `np.mean` of the four
listed values. -/
noncomputable def early_stopping_metric (sed_error doa_error : ℝ × ℝ) : ℝ :=
  (sed_error.1 + (1 - sed_error.2) + doa_error.1 / 180 + (1 - doa_error.2)) / 4

/-- One class entry of a block: `gt[block][class][0]` is the pair
(frame-index list, per-frame coordinate list); the coordinate type `α` is
`ℝ × ℝ × ℝ` for the Cartesian variant and `ℝ × ℝ` (azimuth, elevation in
degrees) for the polar variant.  Only one track per class is supported by
the source, so the single `[0]` track is the whole entry. -/
structure ClassAnnot (α : Type) where
  frame_ind : List ℕ
  doas : List α

/-- One block of annotations: the per-class dictionary,
`class index → entry`. -/
def Block (α : Type) : Type := ℕ → Option (ClassAnnot α)

/-- A per-block annotation dictionary as passed to the ingestion
operations: `size` is `len(d.keys())` and `blocks` is dictionary lookup,
`none` meaning the key is absent (Python raises `KeyError`). -/
structure BlockDict (α : Type) where
  size : ℕ
  blocks : ℕ → Option (Block α)

/-- Python `list.index` / membership: position of the first occurrence. -/
def indexOfFirst (a : ℕ) : List ℕ → Option ℕ
  | [] => none
  | x :: l => if x = a then some 0 else (indexOfFirst a l).map (· + 1)

/-- Left fold that propagates failure of the loop body, modelling a Python
loop whose body may raise. -/
def optFoldl {β γ : Type} (f : β → γ → Option β) : β → List γ → Option β
  | b, [] => some b
  | b, x :: l =>
    match f b x with
    | none => none
    | some b' => optFoldl f b' l

/-- Body of the frame-matching loop (`for gt_ind, gt_val in
enumerate(gt_ind_list)`): when the ground-truth frame index also occurs in
the prediction's frame-index list, add the distance between the
positionally corresponding coordinates to the running sum and bump the
match count.  A coordinate access out of range is a Python `IndexError`,
modelled as `none`. -/
noncomputable def matchStep {α : Type} (dist : α → α → ℝ) (g p : ClassAnnot α)
    (acc : ℝ × ℕ) (gi : ℕ) : Option (ℝ × ℕ) :=
  match g.frame_ind[gi]? with
  | none => some acc
  | some gv =>
    match indexOfFirst gv p.frame_ind with
    | none => some acc
    | some pj =>
      match g.doas[gi]?, p.doas[pj]? with
      | some gd, some pd => some (acc.1 + dist gd pd, acc.2 + 1)
      | _, _ => none

/-- The frame-matching loop: returns
`(total_spatial_dist, total_framewise_matching_doa)`. -/
noncomputable def classMatch {α : Type} (dist : α → α → ℝ) (g p : ClassAnnot α) :
    Option (ℝ × ℕ) :=
  optFoldl (matchStep dist g p) (0, 0) (List.range g.frame_ind.length)

/-- Body of the per-class loop of both ingestion operations.  The running
state is the accumulator together with the block-local `(loc_FN, loc_FP)`
pair; `gc` and `pc` are the class's entries in the ground-truth and
prediction blocks (`none` = class not in the dictionary). -/
noncomputable def processClass {α : Type} (dist : α → α → ℝ) (T : ℝ)
    (st : SELDMetrics × ℕ × ℕ) (gc pc : Option (ClassAnnot α)) :
    Option (SELDMetrics × ℕ × ℕ) :=
  let m0 := st.1
  let locFN := st.2.1
  let locFP := st.2.2
  let m1 := if gc.isSome then { m0 with Nref := m0.Nref + 1 } else m0
  let m := if pc.isSome then { m1 with Nsys := m1.Nsys + 1 } else m1
  match gc, pc with
  | some g, some p =>
    match classMatch dist g p with
    | none => none
    | some (tsd, tm) =>
      if tsd = 0 ∧ tm = 0 then
        some ({ m with FN := m.FN + 1 }, locFN + 1, locFP)
      else
        let avg := tsd / (tm : ℝ)
        let m := { m with total_DE := m.total_DE + avg, DE_TP := m.DE_TP + 1 }
        if avg ≤ T then
          some ({ m with TP := m.TP + 1 }, locFN, locFP)
        else
          some ({ m with FN := m.FN + 1 }, locFN + 1, locFP)
  | some _, none => some ({ m with FN := m.FN + 1 }, locFN + 1, locFP)
  | none, some _ => some ({ m with FP := m.FP + 1 }, locFN, locFP + 1)
  | none, none => some ({ m with TN := m.TN + 1 }, locFN, locFP)

/-- One iteration of the block loop: scan all classes, then fold the
block-local false counts into `S`, `D`, `I` (the `ℕ` truncated
subtraction `a - b` is exactly `np.maximum(0, a - b)`). -/
noncomputable def processBlock {α : Type} (dist : α → α → ℝ) (m : SELDMetrics)
    (gb pb : Block α) : Option SELDMetrics :=
  match optFoldl (fun st c => processClass dist m.spatial_T st (gb c) (pb c))
      (m, 0, 0) (List.range m.nb_classes) with
  | none => none
  | some (m1, locFN, locFP) =>
    some { m1 with
      S := m1.S + min locFP locFN,
      D := m1.D + (locFN - locFP),
      I := m1.I + (locFP - locFN) }

/-- One iteration of the per-class loop as the source executes it: the
dictionary accesses `gt[block_cnt]` and `pred[block_cnt]` happen inside
the loop body (lines 85-87 / 157-159), so they are performed — and can
raise `KeyError`, modelled as `none` — once per class iteration, and not
at all when the class loop is empty. -/
noncomputable def classStep {α : Type} (dist : α → α → ℝ) (T : ℝ)
    (pred gt : BlockDict α) (b : ℕ) (st : SELDMetrics × ℕ × ℕ) (c : ℕ) :
    Option (SELDMetrics × ℕ × ℕ) :=
  match gt.blocks b with
  | none => none
  | some gb =>
    match pred.blocks b with
    | none => none
    | some pb => processClass dist T st (gb c) (pb c)

/-- Body of the block loop: scan all classes with `classStep` (each class
iteration performing its own dictionary lookups), then fold the
block-local false counts into `S`, `D`, `I`.  With `nb_classes = 0` the
scan is empty, so no lookup happens and the iteration succeeds. -/
noncomputable def blockStep {α : Type} (dist : α → α → ℝ)
    (pred gt : BlockDict α) (m : SELDMetrics) (b : ℕ) : Option SELDMetrics :=
  match optFoldl (classStep dist m.spatial_T pred gt b) (m, 0, 0)
      (List.range m.nb_classes) with
  | none => none
  | some (m1, locFN, locFP) =>
    some { m1 with
      S := m1.S + min locFP locFN
      D := m1.D + (locFN - locFP)
      I := m1.I + (locFP - locFN) }

/-- Shared shape of the two ingestion operations (the source duplicates
this loop verbatim in `update_seld_scores_xyz` and `update_seld_scores`,
differing only in the distance computation). -/
noncomputable def updateCore {α : Type} (dist : α → α → ℝ) (m : SELDMetrics)
    (pred gt : BlockDict α) : Option SELDMetrics :=
  optFoldl (blockStep dist pred gt) m (List.range gt.size)

/-- Per-frame distance used by `update_seld_scores_xyz`. -/
noncomputable def cartDist (g p : ℝ × ℝ × ℝ) : ℝ :=
  distance_between_cartesian_coordinates g.1 g.2.1 g.2.2 p.1 p.2.1 p.2.2

/-- `SELDMetrics.update_seld_scores_xyz(pred, gt)`. -/
noncomputable def update_seld_scores_xyz (m : SELDMetrics)
    (pred gt : BlockDict (ℝ × ℝ × ℝ)) : Option SELDMetrics :=
  updateCore cartDist m pred gt

/-- Per-frame distance used by `update_seld_scores`: both annotation
lists are multiplied by `π / 180` before the frame loop, so each frame's
azimuth/elevation pair is converted from degrees to radians. -/
noncomputable def sphDistDeg (g p : ℝ × ℝ) : ℝ :=
  distance_between_spherical_coordinates_rad (g.1 * Real.pi / 180)
    (g.2 * Real.pi / 180) (p.1 * Real.pi / 180) (p.2 * Real.pi / 180)

/-- `SELDMetrics.update_seld_scores(pred_deg, gt_deg)`. -/
noncomputable def update_seld_scores (m : SELDMetrics)
    (pred_deg gt_deg : BlockDict (ℝ × ℝ)) : Option SELDMetrics :=
  updateCore sphDistDeg m pred_deg gt_deg

/-! ## Theorems -/

/-- C9: `early_stopping_metric` applied to the pairs (error_rate, F) and
(doa_error, frame_recall) returns the unweighted mean of error_rate,
1 − F, doa_error/180 and 1 − frame_recall; in particular for
sed_error = [0.5, 0.8] and doa_error = [40, 0.6] it returns
119/360 ≈ 0.3306. -/
theorem early_stopping_metric_spec :
    (∀ er f de fr : ℝ, early_stopping_metric (er, f) (de, fr) =
      (er + (1 - f) + de / 180 + (1 - fr)) / 4) ∧
    early_stopping_metric (0.5, 0.8) (40, 0.6) = 119 / 360 := by
  refine ⟨fun er f de fr => rfl, ?_⟩
  unfold early_stopping_metric
  norm_num

/-- C10: the true-negative counter never influences any returned score:
two accumulator states that differ only in `TN` give identical
`compute_seld_scores` results. -/
theorem compute_seld_scores_TN_irrelevant (m : SELDMetrics) (t : ℕ) :
    compute_seld_scores { m with TN := t } = compute_seld_scores m := rfl

/-- C4: `compute_seld_scores` returns (ER, F, DE, DE_F) with
ER = (S+D+I)/(Nref+ε), precision = TP/(Nsys+ε), recall = TP/(Nref+ε),
F = 2·precision·recall/(precision+recall+ε), DE = total_DE/(DE_TP+ε)
when DE_TP > 0 and the sentinel 180 when DE_TP = 0, and DE_F the F-score
with DE_TP in place of TP. -/
theorem compute_seld_scores_spec (m : SELDMetrics) :
    compute_seld_scores m =
      (((m.S : ℝ) + (m.D : ℝ) + (m.I : ℝ)) / ((m.Nref : ℝ) + eps),
       2 * ((m.TP : ℝ) / ((m.Nsys : ℝ) + eps)) * ((m.TP : ℝ) / ((m.Nref : ℝ) + eps)) /
         ((m.TP : ℝ) / ((m.Nsys : ℝ) + eps) + (m.TP : ℝ) / ((m.Nref : ℝ) + eps) + eps),
       if 0 < m.DE_TP then m.total_DE / ((m.DE_TP : ℝ) + eps) else 180,
       2 * ((m.DE_TP : ℝ) / ((m.Nsys : ℝ) + eps)) * ((m.DE_TP : ℝ) / ((m.Nref : ℝ) + eps)) /
         ((m.DE_TP : ℝ) / ((m.Nsys : ℝ) + eps) + (m.DE_TP : ℝ) / ((m.Nref : ℝ) + eps) + eps)) := by
  unfold compute_seld_scores
  rcases Nat.eq_zero_or_pos m.DE_TP with h0 | h0
  · simp [h0]
  · simp only [Nat.pos_iff_ne_zero.mp h0, ne_eq, not_false_eq_true, if_true, h0, if_pos]
    push_cast
    rfl

/-- Helper: `√4 = 2`. -/
theorem sqrt_four : Real.sqrt 4 = 2 := by
  rw [show (4 : ℝ) = 2 ^ 2 by norm_num, Real.sqrt_sq (by norm_num : (0 : ℝ) ≤ 2)]

/-- Helper: `arcsin (1/2) = π/6`. -/
theorem arcsin_one_half : Real.arcsin (1 / 2) = Real.pi / 6 := by
  rw [← Real.sin_pi_div_six]
  exact Real.arcsin_sin (by nlinarith [Real.pi_pos]) (by nlinarith [Real.pi_pos])

/-- Helper: on the antipodal pair (1,0,0), (−1,0,0) the chord length is 2,
the source clips it to 1, and `2·arcsin(1/2)` gives 60 degrees. -/
theorem cart_antipodal_eval :
    distance_between_cartesian_coordinates 1 0 0 (-1) 0 0 = 60 := by
  simp only [distance_between_cartesian_coordinates]
  rw [show ((1 : ℝ) - -1) ^ 2 + ((0 : ℝ) - 0) ^ 2 + ((0 : ℝ) - 0) ^ 2 = 4 by norm_num,
    sqrt_four, show max (-1 : ℝ) 2 = 2 from max_eq_right (by norm_num),
    show min (1 : ℝ) 2 = 1 from min_eq_left (by norm_num), arcsin_one_half]
  field_simp
  ring

/-- Helper: the spherical formula on the same antipodal configuration in
radians, azimuth 0 vs π at elevation 0, gives `arccos (−1) = π`,
i.e. 180 degrees. -/
theorem sph_antipodal_eval :
    distance_between_spherical_coordinates_rad 0 0 Real.pi 0 = 180 := by
  simp only [distance_between_spherical_coordinates_rad]
  rw [show (0 : ℝ) - Real.pi = -Real.pi by ring, abs_neg,
    abs_of_nonneg Real.pi_pos.le]
  simp only [Real.sin_zero, Real.cos_zero, Real.cos_pi, zero_mul, one_mul, zero_add]
  rw [show max (-1 : ℝ) (-1) = -1 from max_self _,
    show min (1 : ℝ) (-1) = -1 from min_eq_right (by norm_num),
    Real.arccos_neg_one]
  field_simp

/-- C1: the Cartesian and the polar ingestion paths do NOT agree on every
configuration: for the antipodal pair, expressed as the unit vectors
(1,0,0), (−1,0,0) and as the degree pairs (az, ele) = (0°,0°), (180°,0°),
the per-frame distance of `update_seld_scores_xyz` returns 60 while the
per-frame distance of `update_seld_scores` returns 180. -/
theorem coordinate_systems_disagree :
    cartDist (1, 0, 0) (-1, 0, 0) = 60 ∧
    sphDistDeg (0, 0) (180, 0) = 180 ∧
    (60 : ℝ) ≠ 180 := by
  refine ⟨cart_antipodal_eval, ?_, by norm_num⟩
  simp only [sphDistDeg]
  rw [show (0 : ℝ) * Real.pi / 180 = 0 by ring,
    show (180 : ℝ) * Real.pi / 180 = Real.pi by ring]
  exact sph_antipodal_eval

/-- C2: `distance_between_cartesian_coordinates` clips the chord length to
`[−1, 1]` rather than `[0, 2]`, so on the antipodal unit vectors (1,0,0)
and (−1,0,0) (separation θ = 180°) it returns 60 degrees, not 180. -/
theorem cartesian_antipodal_is_60 :
    distance_between_cartesian_coordinates 1 0 0 (-1) 0 0 = 60 ∧
    (60 : ℝ) ≠ 180 :=
  ⟨cart_antipodal_eval, by norm_num⟩

/-- C5: in the both-present branch with at least one matched frame, the
mean matched distance `tsd / tm` decides the outcome: when it is `≤` the
spatial threshold (equality included) exactly `TP` is incremented, and
when it is strictly greater exactly `FN` and the block-local `loc_FN` are
incremented; in both cases the mean is added to `total_DE` and `DE_TP` is
incremented. -/
theorem both_present_threshold {α : Type} (dist : α → α → ℝ) (m : SELDMetrics)
    (locFN locFP : ℕ) (g p : ClassAnnot α) (tsd : ℝ) (tm : ℕ)
    (hmatch : classMatch dist g p = some (tsd, tm)) (htm : 0 < tm) :
    processClass dist m.spatial_T (m, locFN, locFP) (some g) (some p) =
      some (if tsd / (tm : ℝ) ≤ m.spatial_T then
        ({ m with
            Nref := m.Nref + 1
            Nsys := m.Nsys + 1
            total_DE := m.total_DE + tsd / (tm : ℝ)
            DE_TP := m.DE_TP + 1
            TP := m.TP + 1 }, locFN, locFP)
      else
        ({ m with
            Nref := m.Nref + 1
            Nsys := m.Nsys + 1
            total_DE := m.total_DE + tsd / (tm : ℝ)
            DE_TP := m.DE_TP + 1
            FN := m.FN + 1 }, locFN + 1, locFP)) := by
  simp only [processClass, hmatch, Option.isSome_some, if_true]
  rw [if_neg (fun h => absurd h.2 htm.ne')]
  split <;> rfl

/-- Concrete one-frame annotation used to witness the per-class theorems:
the class is active at frame 5 with a single (placeholder) coordinate. -/
def unitA : ClassAnnot Unit := ⟨[5], [()]⟩

/-- Witness for C5: with identical one-frame annotations and the zero
distance function, the matching loop returns `(0, 1)`, the mean distance
`0` is `≤` the default threshold `20`, and exactly `TP` is incremented. -/
theorem both_present_threshold_witness :
    classMatch (fun _ _ => (0 : ℝ)) unitA unitA = some (0, 1) ∧ (0 : ℕ) < 1 ∧
    processClass (fun _ _ => (0 : ℝ)) (SELDMetrics.init 20 11).spatial_T
      (SELDMetrics.init 20 11, 0, 0) (some unitA) (some unitA) =
      some ({ SELDMetrics.init 20 11 with
                Nref := 1
                Nsys := 1
                total_DE := 0 + (0 : ℝ) / ((1 : ℕ) : ℝ)
                DE_TP := 1
                TP := 1 }, 0, 0) := by
  have hm : classMatch (fun _ _ => (0 : ℝ)) unitA unitA = some (0, 1) := by
    simp [classMatch, optFoldl, matchStep, indexOfFirst, unitA]
  refine ⟨hm, by norm_num, ?_⟩
  rw [both_present_threshold (fun _ _ => (0 : ℝ)) (SELDMetrics.init 20 11)
    0 0 unitA unitA 0 1 hm (by norm_num)]
  rw [if_pos (by norm_num [SELDMetrics.init])]
  rfl

/-- C7: each processed (class, block) pair contributes to exactly one of
TP/FP/TN/FN: the four-counter sum grows by exactly one, and which counter
can grow is determined by the membership combination of
{class in ground truth} × {class in prediction}: both present feeds TP or
FN, ground-truth-only feeds FN, prediction-only feeds FP, neither feeds
TN. -/
theorem class_outcome_partition {α : Type} (dist : α → α → ℝ) (T : ℝ)
    (m m' : SELDMetrics) (fn fp fn' fp' : ℕ) (gc pc : Option (ClassAnnot α))
    (h : processClass dist T (m, fn, fp) gc pc = some (m', fn', fp')) :
    m'.TP + m'.FP + m'.TN + m'.FN = m.TP + m.FP + m.TN + m.FN + 1 ∧
    (gc.isSome = true → pc.isSome = true →
      m'.TP + m'.FN = m.TP + m.FN + 1 ∧ m'.FP = m.FP ∧ m'.TN = m.TN) ∧
    (gc.isSome = true → pc.isSome = false →
      m'.FN = m.FN + 1 ∧ m'.TP = m.TP ∧ m'.FP = m.FP ∧ m'.TN = m.TN) ∧
    (gc.isSome = false → pc.isSome = true →
      m'.FP = m.FP + 1 ∧ m'.TP = m.TP ∧ m'.FN = m.FN ∧ m'.TN = m.TN) ∧
    (gc.isSome = false → pc.isSome = false →
      m'.TN = m.TN + 1 ∧ m'.TP = m.TP ∧ m'.FP = m.FP ∧ m'.FN = m.FN) := by
  cases gc with
  | none =>
    cases pc with
    | none =>
      simp only [processClass, Option.isSome_none, Bool.false_eq_true, if_false,
        Option.some.injEq, Prod.mk.injEq] at h
      obtain ⟨rfl, rfl, rfl⟩ := h
      refine ⟨?_, ?_, ?_, ?_, ?_⟩ <;> (simp; try omega)
    | some p =>
      simp only [processClass, Option.isSome_none, Option.isSome_some,
        Bool.false_eq_true, if_false, if_true, Option.some.injEq, Prod.mk.injEq] at h
      obtain ⟨rfl, rfl, rfl⟩ := h
      refine ⟨?_, ?_, ?_, ?_, ?_⟩ <;> (simp; try omega)
  | some g =>
    cases pc with
    | none =>
      simp only [processClass, Option.isSome_none, Option.isSome_some,
        Bool.false_eq_true, if_false, if_true, Option.some.injEq, Prod.mk.injEq] at h
      obtain ⟨rfl, rfl, rfl⟩ := h
      refine ⟨?_, ?_, ?_, ?_, ?_⟩ <;> (simp; try omega)
    | some p =>
      simp only [processClass, Option.isSome_some, if_true] at h
      rcases hcm : classMatch dist g p with _ | ⟨tsd, tm⟩ <;> rw [hcm] at h
      · simp at h
      · simp only [Option.some.injEq, Prod.mk.injEq] at h
        split at h
        · obtain ⟨rfl, rfl, rfl⟩ := h
          refine ⟨?_, ?_, ?_, ?_, ?_⟩ <;> (simp; try omega)
        · split at h
          · obtain ⟨rfl, rfl, rfl⟩ := h
            refine ⟨?_, ?_, ?_, ?_, ?_⟩ <;> (simp; try omega)
          · obtain ⟨rfl, rfl, rfl⟩ := h
            refine ⟨?_, ?_, ?_, ?_, ?_⟩ <;> (simp; try omega)

/-- State reached from a freshly initialized accumulator after one
neither-present class scan: only `TN` is incremented. -/
noncomputable def mTN : SELDMetrics := { SELDMetrics.init 20 11 with TN := 1 }

/-- Witness for C7: a class absent from both dictionaries increments `TN`
and the four-counter sum grows by exactly one. -/
theorem class_outcome_partition_witness :
    processClass (fun _ _ => (0 : ℝ)) (20 : ℝ) (SELDMetrics.init 20 11, 0, 0)
      (none : Option (ClassAnnot Unit)) none = some (mTN, 0, 0) ∧
    mTN.TP + mTN.FP + mTN.TN + mTN.FN =
      (SELDMetrics.init 20 11).TP + (SELDMetrics.init 20 11).FP +
        (SELDMetrics.init 20 11).TN + (SELDMetrics.init 20 11).FN + 1 := by
  have h : processClass (fun _ _ => (0 : ℝ)) (20 : ℝ) (SELDMetrics.init 20 11, 0, 0)
      (none : Option (ClassAnnot Unit)) none = some (mTN, 0, 0) := rfl
  exact ⟨h, (class_outcome_partition _ _ _ _ _ _ _ _ _ _ h).1⟩

/-- Helper: a single class scan never touches `S`, `D` or `I`. -/
theorem processClass_SDI {α : Type} (dist : α → α → ℝ) (T : ℝ)
    (st st' : SELDMetrics × ℕ × ℕ) (gc pc : Option (ClassAnnot α))
    (h : processClass dist T st gc pc = some st') :
    st'.1.S = st.1.S ∧ st'.1.D = st.1.D ∧ st'.1.I = st.1.I := by
  obtain ⟨m, fn, fp⟩ := st
  cases gc with
  | none =>
    cases pc with
    | none =>
      simp only [processClass, Option.isSome_none, Bool.false_eq_true, if_false,
        Option.some.injEq] at h
      subst h
      exact ⟨rfl, rfl, rfl⟩
    | some p =>
      simp only [processClass, Option.isSome_none, Option.isSome_some,
        Bool.false_eq_true, if_false, if_true, Option.some.injEq] at h
      subst h
      exact ⟨rfl, rfl, rfl⟩
  | some g =>
    cases pc with
    | none =>
      simp only [processClass, Option.isSome_none, Option.isSome_some,
        Bool.false_eq_true, if_false, if_true, Option.some.injEq] at h
      subst h
      exact ⟨rfl, rfl, rfl⟩
    | some p =>
      simp only [processClass, Option.isSome_some, if_true] at h
      rcases hcm : classMatch dist g p with _ | ⟨tsd, tm⟩ <;> rw [hcm] at h
      · simp at h
      · simp only [Option.some.injEq] at h
        split at h
        · simp only [Option.some.injEq] at h
          subst h; exact ⟨rfl, rfl, rfl⟩
        · split at h
          · simp only [Option.some.injEq] at h
            subst h; exact ⟨rfl, rfl, rfl⟩
          · simp only [Option.some.injEq] at h
            subst h; exact ⟨rfl, rfl, rfl⟩

/-- Helper: the whole per-block class loop never touches `S`, `D` or
`I`. -/
theorem classLoop_SDI {α : Type} (dist : α → α → ℝ) (T : ℝ)
    (gb pb : Block α) :
    ∀ (l : List ℕ) (st st' : SELDMetrics × ℕ × ℕ),
      optFoldl (fun s c => processClass dist T s (gb c) (pb c)) st l = some st' →
      st'.1.S = st.1.S ∧ st'.1.D = st.1.D ∧ st'.1.I = st.1.I := by
  intro l
  induction l with
  | nil =>
    intro st st' h
    simp only [optFoldl, Option.some.injEq] at h
    subst h
    exact ⟨rfl, rfl, rfl⟩
  | cons x l ih =>
    intro st st' h
    simp only [optFoldl] at h
    rcases hstep : processClass dist T st (gb x) (pb x) with _ | mid <;>
      rw [hstep] at h
    · simp at h
    · obtain ⟨h1, h2, h3⟩ := processClass_SDI dist T st mid (gb x) (pb x) hstep
      obtain ⟨h4, h5, h6⟩ := ih mid st' h
      exact ⟨h4.trans h1, h5.trans h2, h6.trans h3⟩

/-- C6: after a block's class scan ends in accumulator `m1` with
block-local counts `(loc_FN, loc_FP)`, the error-rate counters are
updated as S += min(fp, fn), D += max(0, fn − fp) and I += max(0, fp − fn)
(truncated `ℕ` subtraction is exactly `np.maximum(0, ·)`); the class scan
left S, D, I untouched, so these are the whole per-block increments, they
satisfy ΔS + ΔD = fn and ΔS + ΔI = fp exactly, and non-negativity holds
by the `ℕ` typing of all three counters. -/
theorem block_SDI_update {α : Type} (dist : α → α → ℝ) (m m1 : SELDMetrics)
    (locFN locFP : ℕ) (gb pb : Block α)
    (hloop : optFoldl (fun st c => processClass dist m.spatial_T st (gb c) (pb c))
        (m, 0, 0) (List.range m.nb_classes) = some (m1, locFN, locFP)) :
    processBlock dist m gb pb = some { m1 with
        S := m1.S + min locFP locFN
        D := m1.D + (locFN - locFP)
        I := m1.I + (locFP - locFN) } ∧
    m1.S = m.S ∧ m1.D = m.D ∧ m1.I = m.I ∧
    min locFP locFN + (locFN - locFP) = locFN ∧
    min locFP locFN + (locFP - locFN) = locFP := by
  have hsdi := classLoop_SDI dist m.spatial_T gb pb (List.range m.nb_classes)
    (m, 0, 0) (m1, locFN, locFP) hloop
  refine ⟨?_, hsdi.1, hsdi.2.1, hsdi.2.2, by omega, by omega⟩
  simp only [processBlock, hloop]

/-- State reached from a one-class accumulator after scanning one
empty block: only `TN` is incremented. -/
noncomputable def mTN1 : SELDMetrics := { SELDMetrics.init 20 1 with TN := 1 }

/-- Witness for C6: a single empty block on a one-class accumulator has
loc_FN = loc_FP = 0 and leaves S, D, I at their minimum increments. -/
theorem block_SDI_update_witness :
    optFoldl (fun st c => processClass (fun _ _ => (0 : ℝ))
        (SELDMetrics.init 20 1).spatial_T st
        ((fun _ => none : Block Unit) c) ((fun _ => none : Block Unit) c))
      (SELDMetrics.init 20 1, 0, 0)
      (List.range (SELDMetrics.init 20 1).nb_classes) = some (mTN1, 0, 0) ∧
    processBlock (fun _ _ => (0 : ℝ)) (SELDMetrics.init 20 1)
      (fun _ => none : Block Unit) (fun _ => none : Block Unit) = some { mTN1 with
        S := mTN1.S + min 0 0
        D := mTN1.D + (0 - 0)
        I := mTN1.I + (0 - 0) } := by
  have h : optFoldl (fun st c => processClass (fun _ _ => (0 : ℝ))
      (SELDMetrics.init 20 1).spatial_T st
      ((fun _ => none : Block Unit) c) ((fun _ => none : Block Unit) c))
      (SELDMetrics.init 20 1, 0, 0)
      (List.range (SELDMetrics.init 20 1).nb_classes) = some (mTN1, 0, 0) := rfl
  exact ⟨h, (block_SDI_update _ _ _ _ _ _ _ h).1⟩

/-- Helper: a fold fails when some list element makes the body fail for
every accumulator value. -/
theorem optFoldl_none_of_mem {β γ : Type} (f : β → γ → Option β) (x : γ)
    (l : List γ) (hx : x ∈ l) (hf : ∀ b, f b x = none) :
    ∀ b, optFoldl f b l = none := by
  induction l with
  | nil => cases hx
  | cons y l ih =>
    intro b
    rcases List.mem_cons.mp hx with rfl | hx'
    · simp only [optFoldl, hf b]
    · cases hfy : f b y with
      | none => simp only [optFoldl, hfy]
      | some b' =>
        simp only [optFoldl, hfy]
        exact ih hx' b'

/-- Ground-truth dictionary with exactly one block, in which class 0 is
active at frame 0 with coordinate (1, 0, 0). -/
noncomputable def gtOneBlock : BlockDict (ℝ × ℝ × ℝ) :=
  ⟨1, fun b => if b = 0 then
      some (fun c => if c = 0 then some ⟨[0], [(1, 0, 0)]⟩ else none)
    else none⟩

/-- Prediction dictionary with no entries at all: every block lookup is a
`KeyError`. -/
def predEmpty : BlockDict (ℝ × ℝ × ℝ) := ⟨0, fun _ => none⟩

/-- Counterexample for C3: with the default 11-class configuration, a
one-block ground truth and a prediction dictionary lacking block 0, the
very first class iteration performs `pred[block_cnt]` (which raises
`KeyError`, modelled as `none`), so `update_seld_scores_xyz` fails
instead of treating the missing block as empty and producing an updated
accumulator. -/
theorem missing_pred_block_raises :
    update_seld_scores_xyz (SELDMetrics.init 20 11) predEmpty gtOneBlock = none := rfl

/-- Helper: once both dictionary lookups succeed, the block iteration is
exactly `processBlock` on the two block values, since the repeated
in-loop lookups all return the same blocks. -/
theorem blockStep_eq_processBlock {α : Type} (dist : α → α → ℝ)
    (pred gt : BlockDict α) (m : SELDMetrics) (b : ℕ) (gb pb : Block α)
    (hg : gt.blocks b = some gb) (hp : pred.blocks b = some pb) :
    blockStep dist pred gt m b = processBlock dist m gb pb := by
  have hstep : classStep dist m.spatial_T pred gt b =
      fun st c => processClass dist m.spatial_T st (gb c) (pb c) := by
    funext st c
    unfold classStep
    rw [hg, hp]
  unfold blockStep processBlock
  rw [hstep]

/-- Helper: a single class scan never changes the configured class
count. -/
theorem processClass_nb {α : Type} (dist : α → α → ℝ) (T : ℝ)
    (st st' : SELDMetrics × ℕ × ℕ) (gc pc : Option (ClassAnnot α))
    (h : processClass dist T st gc pc = some st') :
    st'.1.nb_classes = st.1.nb_classes := by
  obtain ⟨m, fn, fp⟩ := st
  cases gc with
  | none =>
    cases pc with
    | none =>
      simp only [processClass, Option.isSome_none, Bool.false_eq_true, if_false,
        Option.some.injEq] at h
      subst h
      rfl
    | some p =>
      simp only [processClass, Option.isSome_none, Option.isSome_some,
        Bool.false_eq_true, if_false, if_true, Option.some.injEq] at h
      subst h
      rfl
  | some g =>
    cases pc with
    | none =>
      simp only [processClass, Option.isSome_none, Option.isSome_some,
        Bool.false_eq_true, if_false, if_true, Option.some.injEq] at h
      subst h
      rfl
    | some p =>
      simp only [processClass, Option.isSome_some, if_true] at h
      rcases hcm : classMatch dist g p with _ | ⟨tsd, tm⟩ <;> rw [hcm] at h
      · simp at h
      · simp only [Option.some.injEq] at h
        split at h
        · simp only [Option.some.injEq] at h
          subst h; rfl
        · split at h
          · simp only [Option.some.injEq] at h
            subst h; rfl
          · simp only [Option.some.injEq] at h
            subst h; rfl

/-- Helper: one in-loop class step never changes the configured class
count. -/
theorem classStep_nb {α : Type} (dist : α → α → ℝ) (T : ℝ)
    (pred gt : BlockDict α) (b : ℕ) (st st' : SELDMetrics × ℕ × ℕ) (c : ℕ)
    (h : classStep dist T pred gt b st c = some st') :
    st'.1.nb_classes = st.1.nb_classes := by
  unfold classStep at h
  split at h
  · simp at h
  · split at h
    · simp at h
    · exact processClass_nb dist T st st' _ _ h

/-- Helper: the class-count invariant is preserved along any fold whose
step preserves it. -/
theorem optFoldl_nb {γ : Type}
    (f : (SELDMetrics × ℕ × ℕ) → γ → Option (SELDMetrics × ℕ × ℕ))
    (hf : ∀ st st' c, f st c = some st' → st'.1.nb_classes = st.1.nb_classes) :
    ∀ (l : List γ) (st st' : SELDMetrics × ℕ × ℕ),
      optFoldl f st l = some st' → st'.1.nb_classes = st.1.nb_classes := by
  intro l
  induction l with
  | nil =>
    intro st st' h
    simp only [optFoldl, Option.some.injEq] at h
    subst h
    rfl
  | cons x l ih =>
    intro st st' h
    rcases hstep : f st x with _ | mid <;> simp only [optFoldl, hstep] at h
    · simp at h
    · exact (ih mid st' h).trans (hf st mid x hstep)

/-- Helper: a block iteration never changes the configured class
count. -/
theorem blockStep_nb {α : Type} (dist : α → α → ℝ) (pred gt : BlockDict α)
    (m mid : SELDMetrics) (b : ℕ) (h : blockStep dist pred gt m b = some mid) :
    mid.nb_classes = m.nb_classes := by
  unfold blockStep at h
  rcases hfold : optFoldl (classStep dist m.spatial_T pred gt b) (m, 0, 0)
      (List.range m.nb_classes) with _ | ⟨m1, locFN, locFP⟩ <;> rw [hfold] at h
  · simp at h
  · simp only [Option.some.injEq] at h
    subst h
    exact optFoldl_nb (classStep dist m.spatial_T pred gt b)
      (fun st st' c hc => classStep_nb dist m.spatial_T pred gt b st st' c hc)
      (List.range m.nb_classes) (m, 0, 0) (m1, locFN, locFP) hfold

/-- Helper: with a positive class count, the first class iteration of a
block whose prediction key is missing performs the failing lookup, so the
block iteration fails. -/
theorem blockStep_missing_pred {α : Type} (dist : α → α → ℝ)
    (pred gt : BlockDict α) (m : SELDMetrics) (b : ℕ)
    (hn : 0 < m.nb_classes) (hp : pred.blocks b = none) :
    blockStep dist pred gt m b = none := by
  have hstep : ∀ st, classStep dist m.spatial_T pred gt b st 0 = none := by
    intro st
    unfold classStep
    rcases gt.blocks b with _ | gb
    · rfl
    · rw [hp]
  have hfold : optFoldl (classStep dist m.spatial_T pred gt b) (m, 0, 0)
      (List.range m.nb_classes) = none :=
    optFoldl_none_of_mem _ 0 _ (List.mem_range.mpr hn) hstep _
  unfold blockStep
  rw [hfold]

/-- Helper: with class count zero the per-block loop body never runs, no
dictionary access happens, and the block iteration returns the
accumulator unchanged (the S/D/I increments are all zero). -/
theorem blockStep_zero_classes {α : Type} (dist : α → α → ℝ)
    (pred gt : BlockDict α) (m : SELDMetrics) (b : ℕ)
    (hn : m.nb_classes = 0) : blockStep dist pred gt m b = some m := by
  unfold blockStep
  rw [hn]
  rfl

/-- Helper: with class count zero the whole block loop succeeds and
leaves the accumulator unchanged, whatever the dictionaries contain. -/
theorem updateCore_zero_classes {α : Type} (dist : α → α → ℝ)
    (pred gt : BlockDict α) :
    ∀ (l : List ℕ) (m : SELDMetrics), m.nb_classes = 0 →
      optFoldl (blockStep dist pred gt) m l = some m := by
  intro l
  induction l with
  | nil => intro m hm; rfl
  | cons x l ih =>
    intro m hm
    simp only [optFoldl, blockStep_zero_classes dist pred gt m x hm]
    exact ih m hm

/-- Helper: with a positive class count, a missing prediction key at a
block index occurring in the loop list fails the whole block loop. -/
theorem updateCore_missing_pred {α : Type} (dist : α → α → ℝ)
    (pred gt : BlockDict α) (b : ℕ) (hp : pred.blocks b = none) :
    ∀ (l : List ℕ) (m : SELDMetrics), b ∈ l → 0 < m.nb_classes →
      optFoldl (blockStep dist pred gt) m l = none := by
  intro l
  induction l with
  | nil => intro m hb; cases hb
  | cons y l ih =>
    intro m hb hn
    rcases List.mem_cons.mp hb with rfl | hb'
    · simp only [optFoldl, blockStep_missing_pred dist pred gt m b hn hp]
    · rcases hstep : blockStep dist pred gt m y with _ | mid
      · simp only [optFoldl, hstep]
      · simp only [optFoldl, hstep]
        exact ih mid hb'
          (lt_of_lt_of_eq hn (blockStep_nb dist pred gt m mid y hstep).symm)

/-- C3 (amended): predictions must cover the ground-truth block range
0..B-1 whenever the per-class loop runs: in both ingestion variants, if
the class count is positive (as in the default 11-class configuration), a
prediction dictionary with no entry for some block index below B makes
the call fail (a `KeyError` in the source) rather than treating that
block's predictions as empty; only when the class count is zero are the
lookups never reached, and the call then succeeds with the accumulator
unchanged. -/
theorem missing_pred_block_fails :
    (∀ (m : SELDMetrics) (pred gt : BlockDict (ℝ × ℝ × ℝ)) (b : ℕ),
      0 < m.nb_classes → b < gt.size → pred.blocks b = none →
      update_seld_scores_xyz m pred gt = none) ∧
    (∀ (m : SELDMetrics) (pred_deg gt_deg : BlockDict (ℝ × ℝ)) (b : ℕ),
      0 < m.nb_classes → b < gt_deg.size → pred_deg.blocks b = none →
      update_seld_scores m pred_deg gt_deg = none) ∧
    (∀ (m : SELDMetrics) (pred gt : BlockDict (ℝ × ℝ × ℝ)),
      m.nb_classes = 0 → update_seld_scores_xyz m pred gt = some m) ∧
    (∀ (m : SELDMetrics) (pred_deg gt_deg : BlockDict (ℝ × ℝ)),
      m.nb_classes = 0 → update_seld_scores m pred_deg gt_deg = some m) := by
  refine ⟨?_, ?_, ?_, ?_⟩
  · intro m pred gt b hn hb hp
    exact updateCore_missing_pred cartDist pred gt b hp (List.range gt.size) m
      (List.mem_range.mpr hb) hn
  · intro m pred_deg gt_deg b hn hb hp
    exact updateCore_missing_pred sphDistDeg pred_deg gt_deg b hp
      (List.range gt_deg.size) m (List.mem_range.mpr hb) hn
  · intro m pred gt hn
    exact updateCore_zero_classes cartDist pred gt (List.range gt.size) m hn
  · intro m pred_deg gt_deg hn
    exact updateCore_zero_classes sphDistDeg pred_deg gt_deg
      (List.range gt_deg.size) m hn

/-- Witness for the amended C3: the default configuration has 11 > 0
classes, block 0 is in the ground-truth range and absent from
`predEmpty`, and the Cartesian ingestion call fails. -/
theorem missing_pred_block_fails_witness :
    0 < (SELDMetrics.init 20 11).nb_classes ∧ 0 < gtOneBlock.size ∧
    predEmpty.blocks 0 = none ∧
    update_seld_scores_xyz (SELDMetrics.init 20 11) predEmpty gtOneBlock = none := by
  refine ⟨by norm_num [SELDMetrics.init], by norm_num [gtOneBlock], rfl, ?_⟩
  exact missing_pred_block_fails.1 (SELDMetrics.init 20 11) predEmpty gtOneBlock 0
    (by norm_num [SELDMetrics.init]) (by norm_num [gtOneBlock]) rfl

/-- Componentwise order on all accumulator counters (configuration fields
excluded): `m ≤ m'` in every counter. -/
def counterLE (m m' : SELDMetrics) : Prop :=
  m.TP ≤ m'.TP ∧ m.FP ≤ m'.FP ∧ m.TN ≤ m'.TN ∧ m.FN ≤ m'.FN ∧
  m.S ≤ m'.S ∧ m.D ≤ m'.D ∧ m.I ≤ m'.I ∧
  m.Nref ≤ m'.Nref ∧ m.Nsys ≤ m'.Nsys ∧
  m.DE_TP ≤ m'.DE_TP ∧ m.total_DE ≤ m'.total_DE

/-- Helper: `counterLE` is reflexive. -/
theorem counterLE_refl (m : SELDMetrics) : counterLE m m :=
  ⟨le_rfl, le_rfl, le_rfl, le_rfl, le_rfl, le_rfl, le_rfl, le_rfl, le_rfl,
    le_rfl, le_rfl⟩

/-- Helper: `counterLE` is transitive. -/
theorem counterLE_trans {a b c : SELDMetrics}
    (h1 : counterLE a b) (h2 : counterLE b c) : counterLE a c := by
  obtain ⟨x1, x2, x3, x4, x5, x6, x7, x8, x9, x10, x11⟩ := h1
  obtain ⟨y1, y2, y3, y4, y5, y6, y7, y8, y9, y10, y11⟩ := h2
  exact ⟨x1.trans y1, x2.trans y2, x3.trans y3, x4.trans y4, x5.trans y5,
    x6.trans y6, x7.trans y7, x8.trans y8, x9.trans y9, x10.trans y10,
    x11.trans y11⟩

/-- Helper: the Cartesian distance is non-negative (`arcsin` of a
non-negative clipped value, scaled by positive constants). -/
theorem distance_between_cartesian_coordinates_nonneg (x1 y1 z1 x2 y2 z2 : ℝ) :
    0 ≤ distance_between_cartesian_coordinates x1 y1 z1 x2 y2 z2 := by
  simp only [distance_between_cartesian_coordinates]
  have h : 0 ≤ min 1 (max (-1)
      (Real.sqrt ((x1 - x2) ^ 2 + (y1 - y2) ^ 2 + (z1 - z2) ^ 2))) :=
    le_min (by norm_num) (le_max_of_le_right (Real.sqrt_nonneg _))
  exact div_nonneg (mul_nonneg (mul_nonneg (by norm_num)
    (Real.arcsin_nonneg.mpr (div_nonneg h (by norm_num)))) (by norm_num))
    Real.pi_pos.le

/-- Helper: the spherical distance is non-negative (`arccos` is valued in
`[0, π]`). -/
theorem distance_between_spherical_coordinates_rad_nonneg
    (az1 ele1 az2 ele2 : ℝ) :
    0 ≤ distance_between_spherical_coordinates_rad az1 ele1 az2 ele2 := by
  simp only [distance_between_spherical_coordinates_rad]
  exact div_nonneg (mul_nonneg (Real.arccos_nonneg _) (by norm_num))
    Real.pi_pos.le

/-- Helper: non-negativity of the per-frame Cartesian distance. -/
theorem cartDist_nonneg (g p : ℝ × ℝ × ℝ) : 0 ≤ cartDist g p :=
  distance_between_cartesian_coordinates_nonneg _ _ _ _ _ _

/-- Helper: non-negativity of the per-frame degree-pair distance. -/
theorem sphDistDeg_nonneg (g p : ℝ × ℝ) : 0 ≤ sphDistDeg g p :=
  distance_between_spherical_coordinates_rad_nonneg _ _ _ _

/-- Helper: one frame-matching step keeps the running distance sum
non-negative when the distance function is non-negative. -/
theorem matchStep_nonneg {α : Type} (dist : α → α → ℝ)
    (hd : ∀ a b, 0 ≤ dist a b) (g p : ClassAnnot α) (acc acc' : ℝ × ℕ) (x : ℕ)
    (h : matchStep dist g p acc x = some acc') (hacc : 0 ≤ acc.1) :
    0 ≤ acc'.1 := by
  unfold matchStep at h
  split at h
  · simp only [Option.some.injEq] at h; subst h; exact hacc
  · split at h
    · simp only [Option.some.injEq] at h; subst h; exact hacc
    · split at h
      · simp only [Option.some.injEq] at h
        subst h
        exact add_nonneg hacc (hd _ _)
      · simp at h

/-- Helper: the frame-matching fold keeps the running distance sum
non-negative. -/
theorem optFoldl_matchStep_nonneg {α : Type} (dist : α → α → ℝ)
    (hd : ∀ a b, 0 ≤ dist a b) (g p : ClassAnnot α) :
    ∀ (l : List ℕ) (acc r : ℝ × ℕ),
      optFoldl (matchStep dist g p) acc l = some r → 0 ≤ acc.1 → 0 ≤ r.1 := by
  intro l
  induction l with
  | nil =>
    intro acc r h hacc
    simp only [optFoldl, Option.some.injEq] at h
    subst h; exact hacc
  | cons x l ih =>
    intro acc r h hacc
    rcases hms : matchStep dist g p acc x with _ | acc' <;>
      simp only [optFoldl, hms] at h
    · simp at h
    · exact ih acc' r h (matchStep_nonneg dist hd g p acc acc' x hms hacc)

/-- Helper: the total matched distance returned by `classMatch` is
non-negative. -/
theorem classMatch_fst_nonneg {α : Type} (dist : α → α → ℝ)
    (hd : ∀ a b, 0 ≤ dist a b) (g p : ClassAnnot α) (tsd : ℝ) (tm : ℕ)
    (h : classMatch dist g p = some (tsd, tm)) : 0 ≤ tsd :=
  optFoldl_matchStep_nonneg dist hd g p (List.range g.frame_ind.length)
    (0, 0) (tsd, tm) h le_rfl

/-- Helper: a single class scan never decreases any counter. -/
theorem processClass_mono {α : Type} (dist : α → α → ℝ) (T : ℝ)
    (hd : ∀ a b, 0 ≤ dist a b) (st st' : SELDMetrics × ℕ × ℕ)
    (gc pc : Option (ClassAnnot α))
    (h : processClass dist T st gc pc = some st') :
    counterLE st.1 st'.1 := by
  obtain ⟨m, fn, fp⟩ := st
  cases gc with
  | none =>
    cases pc with
    | none =>
      simp only [processClass, Option.isSome_none, Bool.false_eq_true, if_false,
        Option.some.injEq] at h
      subst h
      exact ⟨le_rfl, le_rfl, Nat.le_succ _, le_rfl, le_rfl, le_rfl, le_rfl,
        le_rfl, le_rfl, le_rfl, le_rfl⟩
    | some p =>
      simp only [processClass, Option.isSome_none, Option.isSome_some,
        Bool.false_eq_true, if_false, if_true, Option.some.injEq] at h
      subst h
      exact ⟨le_rfl, Nat.le_succ _, le_rfl, le_rfl, le_rfl, le_rfl, le_rfl,
        le_rfl, Nat.le_succ _, le_rfl, le_rfl⟩
  | some g =>
    cases pc with
    | none =>
      simp only [processClass, Option.isSome_none, Option.isSome_some,
        Bool.false_eq_true, if_false, if_true, Option.some.injEq] at h
      subst h
      exact ⟨le_rfl, le_rfl, le_rfl, Nat.le_succ _, le_rfl, le_rfl, le_rfl,
        Nat.le_succ _, le_rfl, le_rfl, le_rfl⟩
    | some p =>
      simp only [processClass, Option.isSome_some, if_true] at h
      rcases hcm : classMatch dist g p with _ | ⟨tsd, tm⟩ <;> rw [hcm] at h
      · simp at h
      · have havg : 0 ≤ tsd / (tm : ℝ) :=
          div_nonneg (classMatch_fst_nonneg dist hd g p tsd tm hcm)
            (Nat.cast_nonneg tm)
        simp only [Option.some.injEq] at h
        split at h
        · simp only [Option.some.injEq] at h
          subst h
          exact ⟨le_rfl, le_rfl, le_rfl, Nat.le_succ _, le_rfl, le_rfl, le_rfl,
            Nat.le_succ _, Nat.le_succ _, le_rfl, le_rfl⟩
        · split at h
          · simp only [Option.some.injEq] at h
            subst h
            exact ⟨Nat.le_succ _, le_rfl, le_rfl, le_rfl, le_rfl, le_rfl,
              le_rfl, Nat.le_succ _, Nat.le_succ _, Nat.le_succ _,
              le_add_of_nonneg_right havg⟩
          · simp only [Option.some.injEq] at h
            subst h
            exact ⟨le_rfl, le_rfl, le_rfl, Nat.le_succ _, le_rfl, le_rfl,
              le_rfl, Nat.le_succ _, Nat.le_succ _, Nat.le_succ _,
              le_add_of_nonneg_right havg⟩

/-- Helper: folding any step that never decreases counters never
decreases counters. -/
theorem optFoldl_counterLE {γ : Type}
    (f : (SELDMetrics × ℕ × ℕ) → γ → Option (SELDMetrics × ℕ × ℕ))
    (hf : ∀ st st' c, f st c = some st' → counterLE st.1 st'.1) :
    ∀ (l : List γ) (st st' : SELDMetrics × ℕ × ℕ),
      optFoldl f st l = some st' → counterLE st.1 st'.1 := by
  intro l
  induction l with
  | nil =>
    intro st st' h
    simp only [optFoldl, Option.some.injEq] at h
    subst h
    exact counterLE_refl _
  | cons x l ih =>
    intro st st' h
    rcases hstep : f st x with _ | mid <;> simp only [optFoldl, hstep] at h
    · simp at h
    · exact counterLE_trans (hf st mid x hstep) (ih mid st' h)

/-- Helper: one in-loop class step (with its dictionary accesses) never
decreases any counter. -/
theorem classStep_mono {α : Type} (dist : α → α → ℝ) (T : ℝ)
    (hd : ∀ a b, 0 ≤ dist a b) (pred gt : BlockDict α) (b : ℕ)
    (st st' : SELDMetrics × ℕ × ℕ) (c : ℕ)
    (h : classStep dist T pred gt b st c = some st') :
    counterLE st.1 st'.1 := by
  unfold classStep at h
  split at h
  · simp at h
  · split at h
    · simp at h
    · exact processClass_mono dist T hd st st' _ _ h

/-- Helper: one block iteration never decreases any counter. -/
theorem blockStep_mono {α : Type} (dist : α → α → ℝ)
    (hd : ∀ a b, 0 ≤ dist a b) (pred gt : BlockDict α) (m mid : SELDMetrics)
    (b : ℕ) (h : blockStep dist pred gt m b = some mid) : counterLE m mid := by
  unfold blockStep at h
  rcases hfold : optFoldl (classStep dist m.spatial_T pred gt b) (m, 0, 0)
      (List.range m.nb_classes) with _ | ⟨m1, locFN, locFP⟩ <;> rw [hfold] at h
  · simp at h
  · simp only [Option.some.injEq] at h
    subst h
    obtain ⟨a1, a2, a3, a4, a5, a6, a7, a8, a9, a10, a11⟩ :=
      optFoldl_counterLE (classStep dist m.spatial_T pred gt b)
        (fun st st' c hc => classStep_mono dist m.spatial_T hd pred gt b st st' c hc)
        (List.range m.nb_classes) (m, 0, 0) (m1, locFN, locFP) hfold
    exact ⟨a1, a2, a3, a4, a5.trans (Nat.le_add_right _ _),
      a6.trans (Nat.le_add_right _ _), a7.trans (Nat.le_add_right _ _),
      a8, a9, a10, a11⟩

/-- Helper: the block loop never decreases any counter. -/
theorem updateCore_mono {α : Type} (dist : α → α → ℝ)
    (hd : ∀ a b, 0 ≤ dist a b) (pred gt : BlockDict α) :
    ∀ (l : List ℕ) (m m' : SELDMetrics),
      optFoldl (blockStep dist pred gt) m l = some m' → counterLE m m' := by
  intro l
  induction l with
  | nil =>
    intro m m' h
    simp only [optFoldl, Option.some.injEq] at h
    subst h
    exact counterLE_refl _
  | cons x l ih =>
    intro m m' h
    rcases hstep : blockStep dist pred gt m x with _ | mid <;>
      simp only [optFoldl, hstep] at h
    · simp at h
    · exact counterLE_trans (blockStep_mono dist hd pred gt m mid x hstep)
        (ih mid m' h)

/-- C8: both ingestion calls are monotone on the accumulator: whenever a
call succeeds, every counter (TP, FP, TN, FN, S, D, I, Nref, Nsys, DE_TP
and the accumulated angular error total_DE) after the call is at least
its value before the call. -/
theorem update_calls_monotone :
    (∀ (m m' : SELDMetrics) (pred gt : BlockDict (ℝ × ℝ × ℝ)),
      update_seld_scores_xyz m pred gt = some m' → counterLE m m') ∧
    (∀ (m m' : SELDMetrics) (pred gt : BlockDict (ℝ × ℝ)),
      update_seld_scores m pred gt = some m' → counterLE m m') := by
  constructor
  · intro m m' pred gt h
    exact updateCore_mono cartDist (fun a b => cartDist_nonneg a b) pred gt
      (List.range gt.size) m m' h
  · intro m m' pred gt h
    exact updateCore_mono sphDistDeg (fun a b => sphDistDeg_nonneg a b) pred gt
      (List.range gt.size) m m' h

/-- Witness for C8: ingesting an empty ground-truth dictionary succeeds
and leaves the accumulator unchanged, so every counter is (trivially)
not decreased. -/
theorem update_calls_monotone_witness :
    update_seld_scores_xyz (SELDMetrics.init 20 11) predEmpty
      ⟨0, fun _ => none⟩ = some (SELDMetrics.init 20 11) ∧
    counterLE (SELDMetrics.init 20 11) (SELDMetrics.init 20 11) := by
  have h : update_seld_scores_xyz (SELDMetrics.init 20 11) predEmpty
      ⟨0, fun _ => none⟩ = some (SELDMetrics.init 20 11) := rfl
  exact ⟨h, update_calls_monotone.1 _ _ _ _ h⟩

end SELD
